import Mathlib

/-!
# Verification of the grafanalib serialization and validation layer

This file gives a shallow embedding, in Lean 4, of the parts of
`grafanalib/core.py` and `grafanalib/validators.py` that carry the
algorithmic content of the library: the `_deep_update` merge engine,
auto panel-id and auto refId assignment, alert-rule serialization,
threshold serialization, the color-code validator and the
`Pixels`/`Percent` value types.

Python values that can appear inside the JSON-like trees the library
manipulates are modelled by the inductive type `PyVal`.  Python objects
that expose a `to_json_data` method are modelled by the `entity`
constructor, carrying the plain JSON form that the method would return.
Python `dict`s are modelled as association lists in insertion order:
assigning to an existing key keeps its position, assigning a fresh key
appends at the end, exactly as in CPython.  A Python function that can
raise an exception is modelled with `Option`/`Except`, `none`/`.error`
standing for the raised exception.
-/

namespace Grafanalib

/-- A Python value as manipulated by the library: JSON scalars, lists,
dicts (association lists in insertion order) and arbitrary objects with
a `to_json_data` method (`entity`, carrying the result of that method). -/
inductive PyVal where
  | null
  | bool (b : Bool)
  | int (n : Int)
  | str (s : String)
  | list (xs : List PyVal)
  | dict (entries : List (String × PyVal))
  | entity (payload : PyVal)
  deriving Repr

/-- Lookup in a Python dict modelled as an association list
(`base_dict[k]` / `k in base_dict`). -/
def assocFind : List (String × PyVal) → String → Option PyVal
  | [], _ => none
  | (k', v') :: rest, k => if k' = k then some v' else assocFind rest k

/-- Assignment `d[k] = v` on a Python dict: an existing key keeps its
position in insertion order, a fresh key is appended at the end. -/
def assocSet : List (String × PyVal) → String → PyVal → List (String × PyVal)
  | [], k, v => [(k, v)]
  | (k', v') :: rest, k, v =>
    if k' = k then (k', v) :: rest else (k', v') :: assocSet rest k v

mutual

/-- Embedding of `_deep_update(base_dict, extra_dict)` from
`grafanalib/core.py`.  `.null` in the second argument models the Python
`None` (the function returns `base_dict` unchanged); a second argument
that is neither `None` nor a dict makes the Python code crash on
`extra_dict.items()`, modelled by `none`. -/
def deepUpdate : PyVal → PyVal → Option PyVal
  | base, .null => some base
  | .dict b, .dict ex => (deepUpdateItems b ex).map PyVal.dict
  | _, _ => none

/-- The loop `for k, v in extra_dict.items(): ...` of `_deep_update`,
threading the (mutated in place, in Python) base dict through the items
of the override dict. -/
def deepUpdateItems (b : List (String × PyVal)) :
    List (String × PyVal) → Option (List (String × PyVal))
  | [] => some b
  | (k, v) :: rest =>
    -- if k in base_dict and hasattr(base_dict[k], "to_json_data"):
    --     base_dict[k] = base_dict[k].to_json_data()
    let b1 := match assocFind b k with
      | some (.entity p) => assocSet b k p
      | _ => b
    -- if k in base_dict and isinstance(base_dict[k], dict): recurse
    -- else: base_dict[k] = v
    match assocFind b1 k with
    | some (.dict inner) =>
      match deepUpdate (.dict inner) v with
      | some m => deepUpdateItems (assocSet b1 k m) rest
      | none => none
    | _ => deepUpdateItems (assocSet b1 k v) rest

end

/-- Resolution of a base value that has a `to_json_data` contract to its
plain-JSON form (`base_dict[k] = base_dict[k].to_json_data()`); any other
value is left as it is. -/
def resolvePy : PyVal → PyVal
  | .entity p => p
  | x => x

/-- The base dict after the resolution step of `_deep_update` at key `k`:
if the value at `k` is an object with a `to_json_data` contract it is
replaced by its plain-JSON form, otherwise the dict is unchanged. -/
def resolveAt (b : List (String × PyVal)) (k : String) : List (String × PyVal) :=
  match assocFind b k with
  | some (.entity p) => assocSet b k p
  | _ => b

/-- One iteration of the `_deep_update` loop, for the single item
`(k, v)` of the override dict. -/
def deepUpdateStep (b : List (String × PyVal)) (k : String) (v : PyVal) :
    Option (List (String × PyVal)) :=
  match assocFind (resolveAt b k) k with
  | some (.dict inner) => (deepUpdate (.dict inner) v).map (assocSet (resolveAt b k) k)
  | _ => some (assocSet (resolveAt b k) k v)

/-- Per-key description of the merge: the value the merge engine stores
at a key `k` of the override dict, as a function of the base dict's value
at `k` (if any) and the override value `v`.  (a) a base value with a
`to_json_data` contract is first resolved, (b) a (resolved) mapping
base value makes the merge recurse, (c) anything else is replaced
outright; a key absent from the base dict is added with value `v`. -/
def mergeAt : Option PyVal → PyVal → Option PyVal
  | none, v => some v
  | some bv, v =>
    match resolvePy bv with
    | .dict inner => deepUpdate (.dict inner) v
    | _ => some v

theorem assocFind_assocSet_self (b : List (String × PyVal)) (k : String) (v : PyVal) :
    assocFind (assocSet b k v) k = some v := by
  induction b with
  | nil => simp [assocSet, assocFind]
  | cons hd tl ih =>
    obtain ⟨k', v'⟩ := hd
    by_cases h : k' = k <;> simp [assocSet, assocFind, h, ih]

theorem assocFind_assocSet_ne {b : List (String × PyVal)} {k k' : String} {v : PyVal}
    (h : k' ≠ k) : assocFind (assocSet b k v) k' = assocFind b k' := by
  induction b with
  | nil => simp [assocSet, assocFind, Ne.symm h]
  | cons hd tl ih =>
    obtain ⟨k₀, v₀⟩ := hd
    by_cases h₀ : k₀ = k
    · subst h₀
      simp [assocSet, assocFind, Ne.symm h]
    · simp [assocSet, assocFind, h₀, ih]

theorem assocFind_resolveAt_ne (b : List (String × PyVal)) {k k' : String}
    (h : k' ≠ k) : assocFind (resolveAt b k) k' = assocFind b k' := by
  unfold resolveAt
  cases hb : assocFind b k with
  | none => rfl
  | some bv => cases bv <;> simp [assocFind_assocSet_ne h]

theorem assocFind_resolveAt_self (b : List (String × PyVal)) (k : String) :
    assocFind (resolveAt b k) k = (assocFind b k).map resolvePy := by
  unfold resolveAt
  cases hb : assocFind b k with
  | none => simp [hb]
  | some bv => cases bv <;> simp [hb, resolvePy, assocFind_assocSet_self]

theorem deepUpdateStep_find_ne {b : List (String × PyVal)} {k : String} {v : PyVal}
    {b2 : List (String × PyVal)} (h : deepUpdateStep b k v = some b2)
    {k' : String} (hne : k' ≠ k) : assocFind b2 k' = assocFind b k' := by
  unfold deepUpdateStep at h
  cases hfind : assocFind (resolveAt b k) k with
  | none =>
    simp [hfind] at h
    subst h
    rw [assocFind_assocSet_ne hne, assocFind_resolveAt_ne _ hne]
  | some bv =>
    cases bv <;> simp [hfind] at h <;>
      first
        | (subst h; rw [assocFind_assocSet_ne hne, assocFind_resolveAt_ne _ hne])
        | (obtain ⟨m, _, rfl⟩ := h
           rw [assocFind_assocSet_ne hne, assocFind_resolveAt_ne _ hne])

theorem deepUpdateStep_find_self {b : List (String × PyVal)} {k : String} {v : PyVal}
    {b2 : List (String × PyVal)} (h : deepUpdateStep b k v = some b2) :
    ∃ w, mergeAt (assocFind b k) v = some w ∧ assocFind b2 k = some w := by
  unfold deepUpdateStep at h
  rw [assocFind_resolveAt_self] at h
  cases hb : assocFind b k with
  | none =>
    simp [hb] at h
    subst h
    exact ⟨v, rfl, assocFind_assocSet_self _ _ _⟩
  | some bv =>
    rw [hb] at h
    simp only [Option.map_some'] at h
    cases hres : resolvePy bv with
    | dict inner =>
      rw [hres] at h
      simp only [] at h
      cases hrec : deepUpdate (.dict inner) v with
      | none => simp [hrec] at h
      | some m =>
        simp [hrec] at h
        subst h
        exact ⟨m, by simp [mergeAt, hres, hrec], assocFind_assocSet_self _ _ _⟩
    | null => rw [hres] at h; simp at h; subst h
              exact ⟨v, by simp [mergeAt, hres], assocFind_assocSet_self _ _ _⟩
    | bool bb => rw [hres] at h; simp at h; subst h
                 exact ⟨v, by simp [mergeAt, hres], assocFind_assocSet_self _ _ _⟩
    | int n => rw [hres] at h; simp at h; subst h
               exact ⟨v, by simp [mergeAt, hres], assocFind_assocSet_self _ _ _⟩
    | str s => rw [hres] at h; simp at h; subst h
               exact ⟨v, by simp [mergeAt, hres], assocFind_assocSet_self _ _ _⟩
    | list xs => rw [hres] at h; simp at h; subst h
                 exact ⟨v, by simp [mergeAt, hres], assocFind_assocSet_self _ _ _⟩
    | entity p => rw [hres] at h; simp at h; subst h
                  exact ⟨v, by simp [mergeAt, hres], assocFind_assocSet_self _ _ _⟩

theorem deepUpdateItems_cons (b : List (String × PyVal)) (k : String) (v : PyVal)
    (rest : List (String × PyVal)) :
    deepUpdateItems b ((k, v) :: rest) =
      (deepUpdateStep b k v).bind (fun b2 => deepUpdateItems b2 rest) := by
  show (match assocFind (match assocFind b k with
          | some (.entity p) => assocSet b k p
          | _ => b) k with
        | some (.dict inner) =>
          match deepUpdate (.dict inner) v with
          | some m => deepUpdateItems (assocSet _ k m) rest
          | none => none
        | _ => deepUpdateItems (assocSet _ k v) rest) = _
  unfold deepUpdateStep resolveAt
  cases hfind : assocFind (match assocFind b k with
      | some (.entity p) => assocSet b k p
      | _ => b) k with
  | none => simp [hfind]
  | some bv =>
    cases bv <;> simp [hfind]
    cases deepUpdate _ v <;> simp


theorem deepUpdateItems_untouched :
    ∀ (ex b r : List (String × PyVal)) (k : String),
      k ∉ ex.map Prod.fst → deepUpdateItems b ex = some r →
      assocFind r k = assocFind b k
  | [], b, r, k, _, h => by
    simp only [deepUpdateItems] at h
    cases h
    rfl
  | (k', v') :: rest, b, r, k, hk, h => by
    rw [deepUpdateItems_cons] at h
    simp only [List.map_cons, List.mem_cons, not_or] at hk
    cases hstep : deepUpdateStep b k' v' with
    | none => rw [hstep] at h; cases h
    | some b2 =>
      rw [hstep, Option.some_bind] at h
      rw [deepUpdateItems_untouched rest b2 r k hk.2 h,
        deepUpdateStep_find_ne hstep hk.1]

theorem deepUpdateItems_mem :
    ∀ (ex b r : List (String × PyVal)), (ex.map Prod.fst).Nodup →
      deepUpdateItems b ex = some r →
      ∀ {k : String} {v : PyVal}, (k, v) ∈ ex →
      ∃ w, mergeAt (assocFind b k) v = some w ∧ assocFind r k = some w
  | [], _, _, _, _, _, _, hmem => by cases hmem
  | (k', v') :: rest, b, r, hnd, h, k, v, hmem => by
    rw [deepUpdateItems_cons] at h
    cases hstep : deepUpdateStep b k' v' with
    | none => rw [hstep] at h; cases h
    | some b2 =>
      rw [hstep, Option.some_bind] at h
      simp only [List.map_cons, List.nodup_cons] at hnd
      rcases List.mem_cons.1 hmem with heq | hrest
      · obtain ⟨rfl, rfl⟩ : k = k' ∧ v = v' := Prod.mk.injEq .. ▸ heq
        obtain ⟨w, hw1, hw2⟩ := deepUpdateStep_find_self hstep
        refine ⟨w, hw1, ?_⟩
        rw [deepUpdateItems_untouched rest b2 r k hnd.1 h, hw2]
      · have hkmem : k ∈ rest.map Prod.fst :=
          List.mem_map.2 ⟨(k, v), hrest, rfl⟩
        have hne : k ≠ k' := fun hkk => hnd.1 (hkk ▸ hkmem)
        obtain ⟨w, hw1, hw2⟩ := deepUpdateItems_mem rest b2 r hnd.2 h hrest
        exact ⟨w, by rw [← deepUpdateStep_find_ne hstep hne]; exact hw1, hw2⟩

/-- **C1.**  The `_deep_update` merge engine: for every base dict and
override dict (with duplicate-free keys, as Python dicts have), in the
merged result (whenever the merge does not crash) every key not in the
override keeps its base value, and every key `k` of the override holds
exactly `mergeAt base[k]? extra[k]`: the base value is resolved via its
`to_json_data` contract if it has one, then the merge recurses if the
resolved value is a mapping, and otherwise the override value replaces it
outright (keys absent from the base are added).  Moreover the two
concrete examples of the spec hold: merging `{"a": {"b": 1, "c": 2}}`
with `{"a": {"b": 99}}` gives `{"a": {"b": 99, "c": 2}}`, and merging
`{"a": 1}` with `{"a": {"x": 1}}` gives `{"a": {"x": 1}}`. -/
theorem C1_deep_update_merge :
    (∀ b ex r : List (String × PyVal), (ex.map Prod.fst).Nodup →
      deepUpdate (.dict b) (.dict ex) = some (.dict r) →
      (∀ k : String, k ∉ ex.map Prod.fst → assocFind r k = assocFind b k) ∧
      (∀ (k : String) (v : PyVal), (k, v) ∈ ex →
        ∃ w, mergeAt (assocFind b k) v = some w ∧ assocFind r k = some w)) ∧
    deepUpdate (.dict [("a", .dict [("b", .int 1), ("c", .int 2)])])
      (.dict [("a", .dict [("b", .int 99)])]) =
      some (.dict [("a", .dict [("b", .int 99), ("c", .int 2)])]) ∧
    deepUpdate (.dict [("a", .int 1)]) (.dict [("a", .dict [("x", .int 1)])]) =
      some (.dict [("a", .dict [("x", .int 1)])]) := by
  refine ⟨fun b ex r hnd h => ?_, rfl, rfl⟩
  have h' : deepUpdateItems b ex = some r := by
    simp only [deepUpdate] at h
    cases hit : deepUpdateItems b ex with
    | none => rw [hit] at h; cases h
    | some r' =>
      rw [hit] at h
      simp only [Option.map_some', Option.some.injEq, PyVal.dict.injEq] at h
      rw [h]
  exact ⟨fun k hk => deepUpdateItems_untouched ex b r k hk h',
    fun k v hmem => deepUpdateItems_mem ex b r hnd h' hmem⟩

/-- Witness for C1, at the second concrete example of the spec. -/
theorem C1_deep_update_merge_witness :
    ∃ w, mergeAt (assocFind [("a", PyVal.int 1)] "a") (.dict [("x", .int 1)]) = some w ∧
      assocFind [("a", PyVal.dict [("x", PyVal.int 1)])] "a" = some w :=
  (C1_deep_update_merge.1 [("a", PyVal.int 1)] [("a", PyVal.dict [("x", PyVal.int 1)])]
      [("a", PyVal.dict [("x", PyVal.int 1)])] (by simp) rfl).2 "a" _ (by simp)

/-! ## The color-code validator (`grafanalib/validators.py`, `is_color_code`)

The Python validator checks `value.startswith("#")`, `len(value) == 7`,
and then that `int(value[1:], 16)` does not raise.  The acceptance
grammar of CPython's `int(s, 16)` is therefore part of the embedding:
optional surrounding whitespace, an optional sign, an optional `0x`/`0X`
prefix, then hexadecimal digits with single underscores allowed between
digits (and directly after the prefix).  We model the ASCII fragment of
that grammar (CPython additionally accepts non-ASCII decimal digits and
whitespace; every string the claims mention is ASCII). -/

/-- Hexadecimal digit as accepted by CPython's `int(s, 16)` (ASCII). -/
def pyIsHexDigit (c : Char) : Bool :=
  c.isDigit || ('a' ≤ c && c ≤ 'f') || ('A' ≤ c && c ≤ 'F')

/-- ASCII whitespace stripped by CPython's `int` before parsing. -/
def pyIsSpace (c : Char) : Bool :=
  c = ' ' || c = '\t' || c = '\n' || c = '\r' || c = '\x0b' || c = '\x0c'

/-- `s.strip()` of surrounding whitespace, as `int()` applies it. -/
def stripWs (l : List Char) : List Char :=
  (((l.dropWhile pyIsSpace).reverse).dropWhile pyIsSpace).reverse

mutual

/-- Continuation of a hex-digit run: digits with single underscores
allowed only between digits (an underscore must be followed by a fresh
non-empty digit run). -/
def hexDigitsRest : List Char → Bool
  | [] => true
  | c :: rest =>
    if c = '_' then hexDigits rest else pyIsHexDigit c && hexDigitsRest rest

/-- A non-empty hex-digit run with single underscores between digits. -/
def hexDigits : List Char → Bool
  | [] => false
  | c :: rest => pyIsHexDigit c && hexDigitsRest rest

end

/-- What may follow a `0x`/`0X` prefix: an optional single underscore,
then a non-empty hex-digit run. -/
def afterPrefix : List Char → Bool
  | [] => false
  | c :: rest => if c = '_' then hexDigits rest else hexDigits (c :: rest)

/-- The part of the `int(s, 16)` grammar after the optional sign: an
optional `0x`/`0X` prefix (an underscore may directly follow it), then
a hex-digit run. -/
def afterSign : List Char → Bool
  | c :: x :: rest =>
    if c = '0' ∧ (x = 'x' ∨ x = 'X') then afterPrefix rest
    else hexDigits (c :: x :: rest)
  | l => hexDigits l

/-- Whether CPython's `int(s, 16)` accepts the string (ASCII fragment):
surrounding whitespace is stripped, then an optional sign, then
`afterSign`. -/
def pyIntHex16Valid (s : List Char) : Bool :=
  match stripWs s with
  | c :: rest => if c = '+' ∨ c = '-' then afterSign rest else afterSign (c :: rest)
  | [] => false

/-- Embedding of `is_color_code` from `grafanalib/validators.py`:
must start with `#`, have length exactly 7, and the remaining 6
characters must be accepted by `int(value[1:], 16)`. -/
def is_color_code (value : String) : Except String String :=
  let err := "Value should be a valid color code (e.g. #37872D)"
  if value.data.take 1 ≠ ['#'] then .error err
  else if value.data.length ≠ 7 then .error err
  else if pyIntHex16Valid (value.data.drop 1) then .ok value
  else .error err

theorem pyIsSpace_eq_false_of_hex {c : Char} (h : pyIsHexDigit c = true) :
    pyIsSpace c = false := by
  by_contra hs
  rw [Bool.not_eq_false] at hs
  simp only [pyIsSpace, Bool.or_eq_true, decide_eq_true_eq] at hs
  rcases hs with ((((rfl | rfl) | rfl) | rfl) | rfl) | rfl <;>
    exact absurd h (by decide)

theorem dropWhile_space_of_hex {l : List Char}
    (h : ∀ c ∈ l, pyIsHexDigit c = true) : l.dropWhile pyIsSpace = l := by
  cases l with
  | nil => rfl
  | cons c rest =>
    rw [List.dropWhile_cons,
      pyIsSpace_eq_false_of_hex (h c (List.mem_cons_self c rest))]
    simp

theorem stripWs_of_hex {l : List Char}
    (h : ∀ c ∈ l, pyIsHexDigit c = true) : stripWs l = l := by
  unfold stripWs
  rw [dropWhile_space_of_hex h,
    dropWhile_space_of_hex (fun c hc => h c (List.mem_reverse.1 hc)),
    List.reverse_reverse]

theorem hexDigitsRest_of_hex {l : List Char}
    (h : ∀ c ∈ l, pyIsHexDigit c = true) : hexDigitsRest l = true := by
  induction l with
  | nil => rfl
  | cons c rest ih =>
    have hc : pyIsHexDigit c = true := h c (List.mem_cons_self c rest)
    have hne : c ≠ '_' := fun hu => absurd (hu ▸ hc) (by decide)
    simp only [hexDigitsRest]
    rw [if_neg hne, hc, ih (fun c' hc' => h c' (List.mem_cons_of_mem c hc'))]
    rfl

theorem hexDigits_of_hex {l : List Char} (hne : l ≠ [])
    (h : ∀ c ∈ l, pyIsHexDigit c = true) : hexDigits l = true := by
  cases l with
  | nil => exact absurd rfl hne
  | cons c rest =>
    simp only [hexDigits]
    rw [h c (List.mem_cons_self c rest),
      hexDigitsRest_of_hex (fun c' hc' => h c' (List.mem_cons_of_mem c hc'))]
    rfl

theorem afterSign_of_hex {l : List Char} (hne : l ≠ [])
    (h : ∀ c ∈ l, pyIsHexDigit c = true) : afterSign l = true := by
  match l with
  | [c] => exact hexDigits_of_hex hne h
  | c :: x :: rest =>
    have hx : pyIsHexDigit x = true := h x (List.mem_cons_of_mem c (List.mem_cons_self x rest))
    have hcond : ¬(c = '0' ∧ (x = 'x' ∨ x = 'X')) := by
      rintro ⟨-, rfl | rfl⟩ <;> exact absurd hx (by decide)
    show (if c = '0' ∧ (x = 'x' ∨ x = 'X') then afterPrefix rest
      else hexDigits (c :: x :: rest)) = true
    rw [if_neg hcond]
    exact hexDigits_of_hex hne h

theorem pyIntHex16Valid_of_hex {l : List Char} (hne : l ≠ [])
    (h : ∀ c ∈ l, pyIsHexDigit c = true) : pyIntHex16Valid l = true := by
  rw [pyIntHex16Valid]
  rw [stripWs_of_hex h]
  cases l with
  | nil => exact absurd rfl hne
  | cons c rest =>
    have hc : pyIsHexDigit c = true := h c (List.mem_cons_self c rest)
    have hcond : ¬(c = '+' ∨ c = '-') := by
      rintro (rfl | rfl) <;> exact absurd hc (by decide)
    show (if c = '+' ∨ c = '-' then afterSign rest else afterSign (c :: rest)) = true
    rw [if_neg hcond]
    exact afterSign_of_hex (by simp) h

/-- The claim fails on the code: `"#+12345"` starts with `#`, has length
7, and its body `"+12345"` contains the non-hex character `'+'`, yet the
validator accepts it, because `int("+12345", 16)` succeeds (a leading
sign is allowed by Python's `int`). -/
theorem C5_color_code_counterexample :
    is_color_code "#+12345" = .ok "#+12345" ∧ pyIsHexDigit '+' = false :=
  ⟨rfl, rfl⟩

/-- **C5 (amended).**  The color-code validator accepts a string exactly
when it starts with `#`, has length exactly 7, and its remaining 6
characters are accepted by CPython's `int(·, 16)` grammar — which
contains every string of 6 hex digits but also strings with surrounding
whitespace, a leading sign, a `0x`/`0X` prefix, or underscores between
digits.  In particular every `#` + 6-hex-digit string is accepted,
`"#37872D"` is accepted, and `"37872D"`, `"#37872"`, `"#37872Z"` are
rejected. -/
theorem C5_color_code_amended :
    (∀ s : String, s.data.take 1 = ['#'] → s.data.length = 7 →
      (∀ c ∈ s.data.drop 1, pyIsHexDigit c = true) →
      is_color_code s = .ok s) ∧
    (∀ s : String, is_color_code s = .ok s ↔
      (s.data.take 1 = ['#'] ∧ s.data.length = 7 ∧
        pyIntHex16Valid (s.data.drop 1) = true)) ∧
    is_color_code "#37872D" = .ok "#37872D" ∧
    is_color_code "37872D" = .error "Value should be a valid color code (e.g. #37872D)" ∧
    is_color_code "#37872" = .error "Value should be a valid color code (e.g. #37872D)" ∧
    is_color_code "#37872Z" = .error "Value should be a valid color code (e.g. #37872D)" := by
  have hiff : ∀ s : String, is_color_code s = .ok s ↔
      (s.data.take 1 = ['#'] ∧ s.data.length = 7 ∧
        pyIntHex16Valid (s.data.drop 1) = true) := by
    intro s
    show (if s.data.take 1 ≠ ['#'] then
        Except.error "Value should be a valid color code (e.g. #37872D)"
      else if s.data.length ≠ 7 then
        Except.error "Value should be a valid color code (e.g. #37872D)"
      else if pyIntHex16Valid (s.data.drop 1) then Except.ok s
      else Except.error "Value should be a valid color code (e.g. #37872D)") =
      Except.ok s ↔ _
    by_cases h1 : s.data.take 1 = ['#']
    · rw [if_neg (not_not_intro h1)]
      by_cases h2 : s.data.length = 7
      · rw [if_neg (not_not_intro h2)]
        by_cases h3 : pyIntHex16Valid (s.data.drop 1) = true
        · rw [if_pos h3]
          exact iff_of_true rfl ⟨h1, h2, h3⟩
        · rw [if_neg h3]
          exact iff_of_false (fun hh => Except.noConfusion hh)
            (fun hh => h3 hh.2.2)
      · rw [if_pos h2]
        exact iff_of_false (fun hh => Except.noConfusion hh)
          (fun hh => h2 hh.2.1)
    · rw [if_pos h1]
      exact iff_of_false (fun hh => Except.noConfusion hh)
        (fun hh => h1 hh.1)
  refine ⟨fun s h1 h2 h3 => ?_, hiff, rfl, rfl, rfl, rfl⟩
  refine (hiff s).2 ⟨h1, h2, pyIntHex16Valid_of_hex ?_ h3⟩
  have hlen : (s.data.drop 1).length = 6 := by rw [List.length_drop, h2]
  intro hnil
  rw [hnil] at hlen
  cases hlen

/-- Witness for C5 (amended), at the accepted string `"#37872D"`. -/
theorem C5_color_code_amended_witness :
    is_color_code "#37872D" = .ok "#37872D" :=
  C5_color_code_amended.1 "#37872D" rfl rfl (by decide)

/-! ## `Pixels` and `Percent` (`grafanalib/core.py`)

Both are pydantic `RootModel`s whose stored root *is* the serialized
string.  Their wrap-validators accept either an `int` (auto-suffixed) or
a pre-formatted string, whose suffix and digit-only numeric body are
checked (`str.isdigit`, modelled on its ASCII fragment, where it means
non-empty and all characters in `0`..`9`). -/

/-- The argument of the `Pixels`/`Percent` validators: Python callers
pass either an `int` or a `str`. -/
inductive PyIntOrStr where
  | int (i : Int)
  | str (s : String)

/-- Python `str.isdigit` on ASCII strings: non-empty, all characters
decimal digits. -/
def pyIsdigit (l : List Char) : Bool :=
  !l.isEmpty && l.all Char.isDigit

/-- Embedding of `Pixels.validate_pixels`: an `int` is turned into
`f"{value}px"`; a string must end with `"px"` and its numeric part must
be digit-only without spaces.  The `.ok` payload is the stored root,
i.e. the serialized form. -/
def validate_pixels : PyIntOrStr → Except String String
  | .int i => .ok (toString i ++ "px")
  | .str s =>
    if ¬ ("px".data.isSuffixOf s.data) then .error "String must end with 'px'"
    else if ¬ pyIsdigit (s.data.take (s.data.length - 2)) = true ∨
        ' ' ∈ s.data.take (s.data.length - 2) then
      .error "The string must contain an integer with no spaces before the 'px'"
    else .ok s

/-- Embedding of `Percent.validate_percentage`, same contract with the
`"%"` suffix. -/
def validate_percentage : PyIntOrStr → Except String String
  | .int i => .ok (toString i ++ "%")
  | .str s =>
    if ¬ ("%".data.isSuffixOf s.data) then .error "String must end with '%'"
    else if ¬ pyIsdigit (s.data.take (s.data.length - 1)) = true ∨
        ' ' ∈ s.data.take (s.data.length - 1) then
      .error "The string must contain an integer with no spaces before the '%'"
    else .ok s

theorem toDigitsCore_digits (b : Nat) (hb : b = 10) :
    ∀ (fuel n : Nat) (acc : List Char), (∀ c ∈ acc, c.isDigit = true) →
      ∀ c ∈ Nat.toDigitsCore b fuel n acc, c.isDigit = true
  | 0, _, _, hacc => hacc
  | fuel + 1, n, acc, hacc => by
    subst hb
    have hd : (Nat.digitChar (n % 10)).isDigit = true := by
      have hlt : n % 10 < 10 := Nat.mod_lt _ (by norm_num)
      set m := n % 10 with hm
      interval_cases m <;> decide
    have hacc' : ∀ c ∈ Nat.digitChar (n % 10) :: acc, c.isDigit = true := by
      intro c hc
      rcases List.mem_cons.1 hc with rfl | hc
      · exact hd
      · exact hacc c hc
    intro c hc
    rw [Nat.toDigitsCore] at hc
    split at hc
    · exact hacc' c hc
    · exact toDigitsCore_digits 10 rfl fuel (n / 10) _ hacc' c hc

theorem toDigitsCore_ne_nil (b : Nat) :
    ∀ (fuel n : Nat) (acc : List Char), acc ≠ [] ∨ fuel ≠ 0 →
      Nat.toDigitsCore b fuel n acc ≠ []
  | 0, _, acc, h => by
    rcases h with h | h
    · exact h
    · exact absurd rfl h
  | fuel + 1, n, acc, _ => by
    rw [Nat.toDigitsCore]
    split
    · exact List.cons_ne_nil _ _
    · exact toDigitsCore_ne_nil b fuel (n / b) _ (Or.inl (List.cons_ne_nil _ _))

theorem natToString_digits (n : Nat) : ∀ c ∈ (toString n).data, c.isDigit = true :=
  toDigitsCore_digits 10 rfl (n + 1) n [] (by intro c hc; cases hc)

theorem natToString_ne_nil (n : Nat) : (toString n).data ≠ [] :=
  toDigitsCore_ne_nil 10 (n + 1) n [] (Or.inr (Nat.succ_ne_zero n))

theorem not_mem_space_of_digits {l : List Char}
    (h : ∀ c ∈ l, c.isDigit = true) : ' ' ∉ l :=
  fun hmem => absurd (h ' ' hmem) (by decide)

theorem pyIsdigit_natToString (n : Nat) : pyIsdigit (toString n).data = true := by
  unfold pyIsdigit
  rw [List.all_eq_true.2 (fun c hc => natToString_digits n c hc)]
  cases hs : (toString n).data with
  | nil => exact absurd hs (natToString_ne_nil n)
  | cons c rest => rfl

theorem take_sub_append (l suf : List Char) :
    (l ++ suf).take ((l ++ suf).length - suf.length) = l := by
  rw [List.length_append, Nat.add_sub_cancel, List.take_left]

theorem isSuffixOf_append (l suf : List Char) : suf.isSuffixOf (l ++ suf) = true := by
  rw [List.isSuffixOf_iff_suffix]
  exact List.suffix_append l suf

theorem validate_pixels_roundtrip (n : Nat) :
    validate_pixels (.str (toString n ++ "px")) = .ok (toString n ++ "px") := by
  have hdata : (toString n ++ "px").data = (toString n).data ++ ['p', 'x'] := by
    rw [String.data_append]
  have htake : ((toString n).data ++ ['p', 'x']).take
      (((toString n).data ++ ['p', 'x']).length - 2) = (toString n).data := by
    simp
  simp only [validate_pixels, hdata]
  rw [htake]
  simp [isSuffixOf_append, pyIsdigit_natToString,
    not_mem_space_of_digits (natToString_digits n)]

theorem validate_percentage_roundtrip (n : Nat) :
    validate_percentage (.str (toString n ++ "%")) = .ok (toString n ++ "%") := by
  have hdata : (toString n ++ "%").data = (toString n).data ++ ['%'] := by
    rw [String.data_append]
  have htake : ((toString n).data ++ ['%']).take
      (((toString n).data ++ ['%']).length - 1) = (toString n).data := by
    simp
  simp only [validate_percentage, hdata]
  rw [htake]
  simp [isSuffixOf_append, pyIsdigit_natToString,
    not_mem_space_of_digits (natToString_digits n)]

/-- **C9.**  `Pixels`/`Percent`: construction from a non-negative integer
`n` stores (hence serializes) exactly `f"{n}px"` / `f"{n}%"`; feeding
that canonical string back through the validator accepts it unchanged,
so re-serializing yields the same string (round-trip idempotence); and a
malformed string (wrong suffix, non-digit numeric body, or embedded
whitespace) is rejected with a validation error, as on the concrete
examples `"250xp"`, `"2 50px"`, `"a50px"`, `"80x"`, `"8 0%"`. -/
theorem C9_pixels_percent_roundtrip :
    (∀ n : Nat,
      validate_pixels (.int (n : Int)) = .ok (toString n ++ "px") ∧
      validate_pixels (.str (toString n ++ "px")) = .ok (toString n ++ "px") ∧
      validate_percentage (.int (n : Int)) = .ok (toString n ++ "%") ∧
      validate_percentage (.str (toString n ++ "%")) = .ok (toString n ++ "%")) ∧
    (∀ s : String, ¬ ("px".data.isSuffixOf s.data) = true →
      validate_pixels (.str s) = .error "String must end with 'px'") ∧
    (∀ s : String, (¬ pyIsdigit (s.data.take (s.data.length - 2)) = true ∨
        ' ' ∈ s.data.take (s.data.length - 2)) →
      ("px".data.isSuffixOf s.data) = true →
      validate_pixels (.str s) =
        .error "The string must contain an integer with no spaces before the 'px'") ∧
    (∀ s : String, ¬ ("%".data.isSuffixOf s.data) = true →
      validate_percentage (.str s) = .error "String must end with '%'") ∧
    (∀ s : String, (¬ pyIsdigit (s.data.take (s.data.length - 1)) = true ∨
        ' ' ∈ s.data.take (s.data.length - 1)) →
      ("%".data.isSuffixOf s.data) = true →
      validate_percentage (.str s) =
        .error "The string must contain an integer with no spaces before the '%'") ∧
    validate_pixels (.str "250xp") = .error "String must end with 'px'" ∧
    validate_pixels (.str "2 50px") =
      .error "The string must contain an integer with no spaces before the 'px'" ∧
    validate_pixels (.str "a50px") =
      .error "The string must contain an integer with no spaces before the 'px'" ∧
    validate_percentage (.str "80x") = .error "String must end with '%'" ∧
    validate_percentage (.str "8 0%") =
      .error "The string must contain an integer with no spaces before the '%'" := by
  refine ⟨fun n => ⟨rfl, validate_pixels_roundtrip n, rfl, validate_percentage_roundtrip n⟩,
    fun s h1 => ?_, fun s h2 h1 => ?_, fun s h1 => ?_, fun s h2 h1 => ?_,
    rfl, rfl, rfl, rfl, rfl⟩
  · simp only [validate_pixels]
    rw [if_pos (by simpa using h1)]
  · simp only [validate_pixels]
    rw [if_neg (by simpa using h1), if_pos h2]
  · simp only [validate_percentage]
    rw [if_pos (by simpa using h1)]
  · simp only [validate_percentage]
    rw [if_neg (by simpa using h1), if_pos h2]

/-- Witness for C9, at `n = 250` and the malformed string `"250xp"`. -/
theorem C9_pixels_percent_roundtrip_witness :
    validate_pixels (.str "250xp") = .error "String must end with 'px'" ∧
    validate_pixels (.int (250 : Int)) = .ok "250px" := by
  constructor
  · exact C9_pixels_percent_roundtrip.2.1 "250xp" (by decide)
  · exact (C9_pixels_percent_roundtrip.1 250).1

/-! ## `Threshold` (`grafanalib/core.py`) -/

/-- Embedding of the `Threshold` entity.  The Python `value` field is a
`float`; no arithmetic is ever performed on it in this code path, so it
is carried here as an exact number. -/
structure Threshold where
  color : PyVal
  index : Int
  value : Int
  line : Bool := true
  op : String := "gt"
  yaxis : String := "left"

/-- Embedding of `Threshold.to_json_data`: the `"value"` field is the
literal string `"null"` when `index == 0`, the constructed numeric value
otherwise. -/
def Threshold.to_json_data (t : Threshold) : List (String × PyVal) :=
  [("op", .str t.op),
   ("yaxis", .str t.yaxis),
   ("color", t.color),
   ("line", .bool t.line),
   ("index", .int t.index),
   ("value", if t.index = 0 then .str "null" else .int t.value)]

/-- **C8.**  A `Threshold` serializes the null-sentinel (the literal
string `"null"`) as its `"value"` field exactly when its `index` is 0,
regardless of the numeric value it was constructed with; a `Threshold`
with `index ≠ 0` serializes its literal numeric value. -/
theorem C8_threshold_null_sentinel (t : Threshold) :
    (assocFind t.to_json_data "value" = some (.str "null") ↔ t.index = 0) ∧
    (t.index ≠ 0 → assocFind t.to_json_data "value" = some (.int t.value)) := by
  have hfind : assocFind t.to_json_data "value" =
      some (if t.index = 0 then .str "null" else .int t.value) := rfl
  refine ⟨⟨fun h => ?_, fun h => by rw [hfind, if_pos h]⟩,
    fun h => by rw [hfind, if_neg h]⟩
  by_contra hne
  rw [hfind, if_neg hne] at h
  exact PyVal.noConfusion (Option.some.inj h)

/-- Witness for C8, at a threshold with `index = 1`, `value = 80`. -/
theorem C8_threshold_null_sentinel_witness :
    assocFind (Threshold.to_json_data
      { color := .str "red", index := 1, value := 80 }) "value" =
      some (.int 80) :=
  (C8_threshold_null_sentinel
    { color := .str "red", index := 1, value := 80 }).2 (by decide)

/-! ## Targets, alert conditions and v8 alert rules (`grafanalib/core.py`) -/

/-- Embedding of the `Target` entity (defaults from the source:
`TIME_SERIES_TARGET_FORMAT = "time_series"`, `DEFAULT_STEP = 10`). -/
structure Target where
  expr : String := ""
  format : String := "time_series"
  hide : Bool := false
  legend_format : String := ""
  interval : String := ""
  interval_factor : Int := 2
  metric : String := ""
  ref_id : String := ""
  step : Int := 10
  target : String := ""
  instant : Bool := false
  datasource : PyVal := .null

/-- Embedding of `Target.to_json_data`. -/
def Target.to_json_data (t : Target) : PyVal :=
  .dict [("expr", .str t.expr),
         ("query", .str t.expr),
         ("target", .str t.target),
         ("format", .str t.format),
         ("hide", .bool t.hide),
         ("interval", .str t.interval),
         ("intervalFactor", .int t.interval_factor),
         ("legendFormat", .str t.legend_format),
         ("alias", .str t.legend_format),
         ("metric", .str t.metric),
         ("refId", .str t.ref_id),
         ("step", .int t.step),
         ("instant", .bool t.instant),
         ("datasource", t.datasource)]

/-- Embedding of the `Evaluator` entity. -/
structure Evaluator where
  type : PyVal
  params : PyVal

def Evaluator.to_json_data (e : Evaluator) : PyVal :=
  .dict [("type", e.type), ("params", e.params)]

/-- Embedding of the `TimeRange` entity. -/
structure TimeRange where
  from_time : PyVal
  to_time : PyVal

def TimeRange.to_json_data (tr : TimeRange) : PyVal :=
  .list [tr.from_time, tr.to_time]

/-- Embedding of the `AlertCondition` entity. -/
structure AlertCondition where
  target : Option Target := none
  evaluator : Evaluator
  time_range : Option TimeRange := none
  operator : String := "and"
  reducer_type : String := "last"
  use_new_alerts : Bool := false
  type_ : String := "query"

/-- Embedding of `AlertCondition.__get_query_params`. -/
def AlertCondition.get_query_params (c : AlertCondition) : List PyVal :=
  if c.use_new_alerts then
    match c.target with
    | some t => [.str t.ref_id]
    | none => []
  else
    match c.target, c.time_range with
    | some t, some tr => [.str t.ref_id, tr.from_time, tr.to_time]
    | _, _ => []

/-- Embedding of `AlertCondition.to_json_data`; when `use_new_alerts` is
set, `condition["query"].pop("model", None)` removes the `"model"` key
(keeping the order of the remaining keys). -/
def AlertCondition.to_json_data (c : AlertCondition) : PyVal :=
  .dict [("evaluator", c.evaluator.to_json_data),
         ("operator", .dict [("type", .str c.operator)]),
         ("query", .dict
           ((if c.use_new_alerts then [] else
              [("model", match c.target with
                         | some t => t.to_json_data
                         | none => .dict [])]) ++
            [("params", .list c.get_query_params)])),
         ("reducer", .dict [("params", .list []), ("type", .str c.reducer_type)]),
         ("type", .str c.type_)]

/-- Embedding of the `AlertRulev8` entity (serialization-relevant
fields). -/
structure AlertRulev8 where
  title : PyVal
  triggers : List (Target × AlertCondition)
  annotations : List (String × PyVal) := []
  labels : List (String × PyVal) := []
  evaluate_interval : String := "1m"
  evaluate_for : String := "5m"
  no_data_alert_state : String := "Alerting"
  error_alert_state : String := "Alerting"
  time_range_from : Int := 300
  time_range_to : Int := 0
  uid : Option String := none
  dashboard_uid : String := ""
  panel_id : Int := 0
  rule_group : String := ""

/-- The per-target entry appended to `data` for each `(trigger, _)`
pair in `AlertRulev8.to_json_data`. -/
def v8DataEntry (r : AlertRulev8) (t : Target) : PyVal :=
  .dict [("refId", .str t.ref_id),
         ("relativeTimeRange", .dict [("from", .int r.time_range_from),
                                      ("to", .int r.time_range_to)]),
         ("datasourceUid", t.datasource),
         ("model", t.to_json_data)]

/-- The condition JSON built for each `(trigger, condition)` pair: the
loop first sets `condition.use_new_alerts = True` and
`condition.target = trigger` (the documented mutation), then serializes
the condition. -/
def v8ConditionJson (t : Target) (c : AlertCondition) : PyVal :=
  AlertCondition.to_json_data { c with use_new_alerts := true, target := some t }

/-- The terminal synthetic entry of `data`, aggregating all conditions
via classic-condition combination. -/
def v8TerminalEntry (conditions : List PyVal) : PyVal :=
  .dict [("refId", .str "CONDITION"),
         ("datasourceUid", .str "-100"),
         ("model", .dict [("conditions", .list conditions),
                          ("refId", .str "CONDITION"),
                          ("type", .str "classic_conditions")])]

/-- Embedding of `AlertRulev8.to_json_data`: one `data` entry per
trigger in list order, then the terminal `CONDITION` entry. -/
def AlertRulev8.to_json_data (r : AlertRulev8) : PyVal :=
  let data := r.triggers.map (fun tc => v8DataEntry r tc.1)
  let conditions := r.triggers.map (fun tc => v8ConditionJson tc.1 tc.2)
  .dict [("for", .str r.evaluate_for),
         ("labels", .dict r.labels),
         ("annotations", .dict r.annotations),
         ("grafana_alert", .dict [
           ("title", r.title),
           ("condition", .str "CONDITION"),
           ("data", .list (data ++ [v8TerminalEntry conditions])),
           ("intervalSeconds", .str r.evaluate_interval),
           ("exec_err_state", .str r.error_alert_state),
           ("no_data_state", .str r.no_data_alert_state),
           ("uid", match r.uid with | some u => .str u | none => .null),
           ("rule_group", .str r.rule_group)])]

/-- Lookup of a key in a serialized (dict) value. -/
def PyVal.pyGet : PyVal → String → Option PyVal
  | .dict es, k => assocFind es k
  | _, _ => none

/-- Length of a serialized list value. -/
def PyVal.pyLen : PyVal → Option Nat
  | .list xs => some xs.length
  | _ => none

/-- A concrete two-pair v8 rule, matching the spec's scenario: two
`(Target(refId="A"/"B"), AlertCondition(...))` pairs. -/
def ruleTwoPairs : AlertRulev8 :=
  { title := .str "rule",
    triggers :=
      [({ ref_id := "A", expr := "up == 0" },
        { evaluator := { type := .str "gt", params := .list [.int 3] },
          time_range := some { from_time := .str "5m", to_time := .str "now" } }),
       ({ ref_id := "B", expr := "up == 1" },
        { evaluator := { type := .str "lt", params := .list [.int 1] },
          time_range := some { from_time := .str "5m", to_time := .str "now" } })] }

/-- **C4.**  For every v8 alert rule, the serialized `data` array holds
one entry per `(target, condition)` pair, in list order — each carrying
that target's `refId`, the rule's relative time window, and the target's
query model — followed by exactly one terminal entry with refId
`"CONDITION"` whose `model.conditions` holds one serialized condition
per pair; in particular a two-pair rule yields a `data` array of exactly
3 entries whose terminal entry's `model.conditions` has length 2. -/
theorem C4_alert_rule_v8_data :
    (∀ r : AlertRulev8, ∃ ds : List PyVal,
      (r.to_json_data.pyGet "grafana_alert").bind (·.pyGet "data") =
        some (.list ds) ∧
      ds.length = r.triggers.length + 1 ∧
      (∀ (i : Nat) (t : Target) (c : AlertCondition),
        r.triggers.get? i = some (t, c) → ds.get? i = some (v8DataEntry r t)) ∧
      ds.getLast? = some (v8TerminalEntry
        (r.triggers.map (fun tc => v8ConditionJson tc.1 tc.2))) ∧
      (r.triggers.map (fun tc => v8ConditionJson tc.1 tc.2)).length =
        r.triggers.length) ∧
    ((ruleTwoPairs.to_json_data.pyGet "grafana_alert").bind
        (·.pyGet "data")).bind PyVal.pyLen = some 3 ∧
    (((((ruleTwoPairs.to_json_data.pyGet "grafana_alert").bind
        (·.pyGet "data")).bind (fun d => match d with
          | .list ds => ds.getLast?
          | _ => none)).bind (·.pyGet "model")).bind
        (·.pyGet "conditions")).bind PyVal.pyLen = some 2 := by
  refine ⟨fun r => ?_, rfl, rfl⟩
  refine ⟨r.triggers.map (fun tc => v8DataEntry r tc.1) ++
    [v8TerminalEntry (r.triggers.map (fun tc => v8ConditionJson tc.1 tc.2))],
    rfl, by simp, fun i t c hi => ?_, List.getLast?_concat _, by simp⟩
  have hlt : i < (r.triggers.map (fun tc => v8DataEntry r tc.1)).length := by
    rw [List.length_map]
    exact List.get?_eq_some.1 hi |>.1
  rw [List.get?_eq_getElem?, List.getElem?_append_left hlt, List.getElem?_map,
    ← List.get?_eq_getElem?, hi]
  rfl

/-- Witness for C4, instantiated at the concrete two-pair rule. -/
theorem C4_alert_rule_v8_data_witness :
    ∃ ds : List PyVal,
      (ruleTwoPairs.to_json_data.pyGet "grafana_alert").bind (·.pyGet "data") =
        some (.list ds) ∧
      ds.length = ruleTwoPairs.triggers.length + 1 ∧
      (∀ (i : Nat) (t : Target) (c : AlertCondition),
        ruleTwoPairs.triggers.get? i = some (t, c) →
          ds.get? i = some (v8DataEntry ruleTwoPairs t)) ∧
      ds.getLast? = some (v8TerminalEntry
        (ruleTwoPairs.triggers.map (fun tc => v8ConditionJson tc.1 tc.2))) ∧
      (ruleTwoPairs.triggers.map (fun tc => v8ConditionJson tc.1 tc.2)).length =
        ruleTwoPairs.triggers.length :=
  C4_alert_rule_v8_data.1 ruleTwoPairs

/-! ## `is_valid_triggers` (`grafanalib/core.py`, C7)

The validator iterates over the candidate list and, for each element,
requires `isinstance(trigger, tuple)` and then
`list(map(type, trigger)) == [Any, AlertCondition]` — where `Any` is
`typing.Any`, imported at the top of `core.py`.  `typing.Any` is not a
class, so `type(x) == typing.Any` is `False` for every object `x`; the
comparison therefore fails for **every** tuple, including genuine
`(Target, AlertCondition)` pairs.  The model keeps Python types as an
explicit datatype in which `anyForm` (for `typing.Any`) is never the
type of an object. -/

/-- A Python runtime type, as returned by `type(x)`, plus the special
form `typing.Any` which appears in the comparison list (but is never
the type of any object). -/
inductive PyType where
  | targetT
  | alertConditionT
  | tupleT
  | otherT (name : String)
  | anyForm
  deriving DecidableEq, Repr

/-- A Python object as it may appear in a `triggers` list. -/
inductive PyObj where
  | target (t : Target)
  | alertCondition (c : AlertCondition)
  | tuple (els : List PyObj)
  | other (name : String)

/-- `type(x)`: the runtime type of an object.  Never `anyForm`. -/
def pyTypeOf : PyObj → PyType
  | .target _ => .targetT
  | .alertCondition _ => .alertConditionT
  | .tuple _ => .tupleT
  | .other n => .otherT n

/-- The loop body of `is_valid_triggers`: returns the message of the
first `ValueError` raised, or `none` if the loop completes. -/
def checkTriggers : List PyObj → Option String
  | [] => none
  | trigger :: rest =>
    match trigger with
    | .tuple els =>
      if els.map pyTypeOf ≠ [PyType.anyForm, PyType.alertConditionT] then
        some "triggers must be a list of [(Target, AlertCondition)] tuples"
      else checkTriggers rest
    | _ => some "triggers must be a list of [(Target, AlertCondition)] tuples"

/-- Embedding of `is_valid_triggers`: raises the first `ValueError` of
the loop, otherwise returns the list unchanged. -/
def is_valid_triggers (value : List PyObj) : Except String (List PyObj) :=
  match checkTriggers value with
  | some msg => .error msg
  | none => .ok value

theorem pyTypeOf_ne_anyForm (o : PyObj) : pyTypeOf o ≠ PyType.anyForm := by
  cases o <;> simp [pyTypeOf]

/-- **C7 (code bug).**  `is_valid_triggers` accepts only the empty
list: because `type(x) == typing.Any` is false for every object,
every element — tuple or not, valid `(Target, AlertCondition)` pair or
not — raises the `ValueError`, contradicting the validator's own error
message; in particular the perfectly valid singleton list
`[(Target(refId="A"), AlertCondition(...))]` is rejected, and no
non-empty refId check is performed anywhere. -/
theorem C7_is_valid_triggers_rejects_valid_pairs :
    (∀ l : List PyObj, is_valid_triggers l = .ok l ↔ l = []) ∧
    is_valid_triggers
      [.tuple [.target { ref_id := "A" },
               .alertCondition
                 { evaluator := { type := .str "gt", params := .list [.int 3] } }]] =
      .error "triggers must be a list of [(Target, AlertCondition)] tuples" := by
  refine ⟨fun l => ?_, rfl⟩
  constructor
  · intro h
    cases l with
    | nil => rfl
    | cons trigger rest =>
      exfalso
      cases trigger with
      | tuple els =>
        have hne : els.map pyTypeOf ≠ [PyType.anyForm, PyType.alertConditionT] := by
          intro heq
          cases els with
          | nil => exact List.noConfusion heq
          | cons e els' =>
            rw [List.map_cons] at heq
            exact pyTypeOf_ne_anyForm e (List.head_eq_of_cons_eq heq)
        rw [is_valid_triggers, checkTriggers, if_pos hne] at h
        exact Except.noConfusion h
      | target t => exact Except.noConfusion h
      | alertCondition c => exact Except.noConfusion h
      | other n => exact Except.noConfusion h
  · rintro rfl
    rfl

/-- Witness for C7: the empty triggers list is accepted, and the valid
one-pair list is rejected. -/
theorem C7_is_valid_triggers_rejects_valid_pairs_witness :
    is_valid_triggers [] = .ok [] :=
  (C7_is_valid_triggers_rejects_valid_pairs.1 []).2 rfl

/-! ## The dashboard panel tree and `auto_panel_ids` (`grafanalib/core.py`)

`Dashboard._iter_panels` yields the direct panels of each legacy `Row`
(in order), then each top-level panel followed — for container panels,
i.e. `RowPanel`s, which have an `_iter_panels` attribute — by its direct
children.  `Dashboard._map_panels` rebuilds rows by mapping `f` over
each row's direct panels, and maps `Panel._map_panels` (which is
`f(self)`) or `RowPanel._map_panels` (which maps `f` over the *children
only*, never over the container itself) over top-level panels.
`auto_panel_ids` collects the truthy ids of `_iter_panels` into a set
and maps a `set_id` closure over the tree that draws fresh ids from the
generator `(i for i in itertools.count(1) if i not in ids)`.

A Python panel id is "unset" for this code exactly when it is falsy
(`None`, or `0`), hence `idTruthy` below. -/

/-- A panel in a dashboard tree: a plain (non-container) panel, or a
container `RowPanel` with its direct children.  Only the `id` field and
the children participate in `auto_panel_ids`; the remaining entity
fields are irrelevant to the claims about it. -/
inductive PanelT where
  | plain (id : Option Int)
  | rowPanel (id : Option Int) (panels : List PanelT)
  deriving Repr

/-- The `id` field of a panel. -/
def PanelT.id : PanelT → Option Int
  | .plain i => i
  | .rowPanel i _ => i

/-- `panel.copy(update={"id": i})`. -/
def PanelT.withId : PanelT → Option Int → PanelT
  | .plain _, i => .plain i
  | .rowPanel _ ps, i => .rowPanel i ps

/-- Python truthiness of a panel id (`if panel.id`): `None` and `0` are
falsy. -/
def idTruthy : Option Int → Bool
  | none => false
  | some n => n != 0

/-- A legacy `Row`: its `_iter_panels`/`_map_panels` touch only the
direct `panels` list (the other `Row` fields play no role here). -/
structure Row where
  panels : List PanelT
  deriving Repr

/-- The panels contributed by a top-level panel beyond itself:
`RowPanel._iter_panels` yields its direct children; a plain panel has no
`_iter_panels` attribute. -/
def PanelT.childPanels : PanelT → List PanelT
  | .plain _ => []
  | .rowPanel _ ps => ps

/-- The serialization-relevant `Dashboard` fields.  The fields that are
objects with a `to_json_data` contract (`annotations`, `templating`,
`time`, `time_picker`) are carried as `PyVal`s and resolved with
`resolvePy` during serialization. -/
structure Dashboard where
  title : PyVal := .str ""
  annotations : PyVal := .entity (.dict [])
  description : String := ""
  editable : Bool := true
  gnet_id : PyVal := .null
  graph_tooltip : Int := 0
  hide_controls : Bool := false
  id : PyVal := .null
  inputs : List PyVal := []
  links : List PyVal := []
  panels : List PanelT := []
  refresh : String := "10s"
  rows : List Row := []
  schema_version : Int := 12
  shared_crosshair : Bool := false
  style : PyVal := .str "dark"
  tags : List PyVal := []
  templating : PyVal := .entity (.dict [])
  time : PyVal := .entity (.list [.str "now-1h", .str "now"])
  time_picker : PyVal := .entity (.dict [])
  timezone : PyVal := .str "utc"
  version : Int := 0
  uid : PyVal := .null

/-- Embedding of `Dashboard._iter_panels`: rows' direct panels first,
then each top-level panel followed by its direct children when it is a
container. -/
def Dashboard.iterPanels (d : Dashboard) : List PanelT :=
  (d.rows.map Row.panels).flatten ++
    (d.panels.map (fun p => p :: p.childPanels)).flatten

/-- The set (as a list; only membership matters) of already-assigned
truthy panel ids: `{panel.id for panel in self._iter_panels() if panel.id}`. -/
def Dashboard.usedIds (d : Dashboard) : List Int :=
  d.iterPanels.filterMap (fun p =>
    match p.id with
    | some n => if n ≠ 0 then some n else none
    | none => none)

/-- The state of the generator
`auto_ids = (i for i in itertools.count(1) if i not in ids)`: the next
candidate to examine.  `nextAvail ids c` is the next value the generator
yields from state `c`. -/
def nextAvail (ids : List Int) (c : Nat) : Nat :=
  if (c : Int) ∈ ids then nextAvail ids (c + 1) else c
termination_by (ids.filter (fun i => (c : Int) ≤ i)).length
decreasing_by
  rename_i hmem
  have hmono : (ids.filter (fun i => ((c : Int) + 1) ≤ i)).Sublist
      (ids.filter (fun i => (c : Int) ≤ i)) :=
    List.monotone_filter_right ids (fun a ha => by
      simp only [decide_eq_true_eq] at ha ⊢
      omega)
  have hx : (c : Int) ∈ ids.filter (fun i => (c : Int) ≤ i) := by
    rw [List.mem_filter]
    exact ⟨hmem, by simp⟩
  have hnx : (c : Int) ∉ ids.filter (fun i => ((c : Int) + 1) ≤ i) := by
    rw [List.mem_filter]
    rintro ⟨-, hle⟩
    simp at hle
  rcases lt_or_eq_of_le hmono.length_le with hlt | heq
  · exact hlt
  · exact absurd (hmono.eq_of_length heq ▸ hx) hnx

/-- One call of the `set_id` closure: a panel with a truthy id is
returned unchanged; otherwise it receives `next(auto_ids)`.  The `Nat`
component is the generator state (next candidate to examine), which the
`next` call advances past the value it yields. -/
def setIdStep (ids : List Int) (p : PanelT) (c : Nat) : PanelT × Nat :=
  if idTruthy p.id then (p, c)
  else
    let n := nextAvail ids c
    (p.withId (some (n : Int)), n + 1)

/-- `set_id` mapped over a list of panels (a row's panels, or a
container's children), threading the generator state left to right in
Python evaluation order. -/
def assignList (ids : List Int) : List PanelT → Nat → List PanelT × Nat
  | [], c => ([], c)
  | p :: rest, c =>
    ((setIdStep ids p c).1 :: (assignList ids rest (setIdStep ids p c).2).1,
     (assignList ids rest (setIdStep ids p c).2).2)

/-- `Row._map_panels(f)` for each row, in order
(`new_rows = [row._map_panels(f) for row in self.rows]`). -/
def assignRows (ids : List Int) : List Row → Nat → List Row × Nat
  | [], c => ([], c)
  | r :: rest, c =>
    (⟨(assignList ids r.panels c).1⟩ ::
       (assignRows ids rest (assignList ids r.panels c).2).1,
     (assignRows ids rest (assignList ids r.panels c).2).2)

/-- `panel._map_panels(f)` for one top-level panel: a plain panel is
`f(self)`; a container `RowPanel` maps `f` over its direct children
only — `RowPanel._map_panels` never applies `f` to the container
itself. -/
def mapPanelTop (ids : List Int) (p : PanelT) (c : Nat) : PanelT × Nat :=
  match p with
  | .plain _ => setIdStep ids p c
  | .rowPanel i ps =>
    (.rowPanel i (assignList ids ps c).1, (assignList ids ps c).2)

/-- `panel._map_panels(f)` over the top-level panels, in order. -/
def assignTops (ids : List Int) : List PanelT → Nat → List PanelT × Nat
  | [], c => ([], c)
  | p :: rest, c =>
    ((mapPanelTop ids p c).1 :: (assignTops ids rest (mapPanelTop ids p c).2).1,
     (assignTops ids rest (mapPanelTop ids p c).2).2)

/-- Embedding of `Dashboard.auto_panel_ids`: collect the truthy ids of
the whole tree, then map `set_id` over rows first, then top-level
panels, drawing fresh ids from the shared generator started at 1. -/
def Dashboard.auto_panel_ids (d : Dashboard) : Dashboard :=
  { d with
    rows := (assignRows d.usedIds d.rows 1).1,
    panels := (assignTops d.usedIds d.panels
      (assignRows d.usedIds d.rows 1).2).1 }

/-- A value of the serialized dashboard dict: panels and rows are
carried as the Python objects they are at this stage (`to_json_data`
does not serialize them), every other field as a `PyVal`. -/
inductive DashValue where
  | val (v : PyVal)
  | panels (ps : List PanelT)
  | rows (rs : List Row)

/-- Embedding of `Dashboard.to_json_data`.  The first component is the
trace of warnings the call emits: the source's
`if self.panels and self.rows:` branch is a bare `pass` (a placeholder
comment `# Your logic here`), so the trace is always empty.  The
`"panels"` key holds `self.panels if not self.rows else []`, the
`"rows"` key always holds `self.rows`. -/
def Dashboard.to_json_data (d : Dashboard) :
    List String × List (String × DashValue) :=
  ([],
   [("__inputs", .val (.list d.inputs)),
    ("annotations", .val (resolvePy d.annotations)),
    ("description", .val (.str d.description)),
    ("editable", .val (.bool d.editable)),
    ("gnetId", .val d.gnet_id),
    ("graphTooltip", .val (.int d.graph_tooltip)),
    ("hideControls", .val (.bool d.hide_controls)),
    ("id", .val d.id),
    ("links", .val (.list d.links)),
    ("panels", .panels (if d.rows.isEmpty then d.panels else [])),
    ("refresh", .val (.str d.refresh)),
    ("rows", .rows d.rows),
    ("schemaVersion", .val (.int d.schema_version)),
    ("sharedCrosshair", .val (.bool d.shared_crosshair)),
    ("style", .val d.style),
    ("tags", .val (.list d.tags)),
    ("templating", .val (resolvePy d.templating)),
    ("title", .val d.title),
    ("time", .val (resolvePy d.time)),
    ("timepicker", .val (resolvePy d.time_picker)),
    ("timezone", .val d.timezone),
    ("version", .val (.int d.version)),
    ("uid", .val d.uid)])

theorem nextAvail_spec (ids : List Int) (c : Nat) :
    ((nextAvail ids c : Int) ∉ ids) ∧ c ≤ nextAvail ids c ∧
    ∀ m : Nat, c ≤ m → m < nextAvail ids c → (m : Int) ∈ ids := by
  induction c using nextAvail.induct ids with
  | case1 c hmem ih =>
    obtain ⟨h1, h2, h3⟩ := ih
    have heq : nextAvail ids c = nextAvail ids (c + 1) := by
      rw [nextAvail, if_pos hmem]
    rw [heq]
    refine ⟨h1, by omega, fun m hm1 hm2 => ?_⟩
    rcases Nat.eq_or_lt_of_le hm1 with rfl | hlt
    · exact hmem
    · exact h3 m hlt hm2
  | case2 c hmem =>
    have heq : nextAvail ids c = c := by
      rw [nextAvail, if_neg hmem]
    rw [heq]
    exact ⟨hmem, Nat.le_refl c, fun m hm1 hm2 => absurd hm2 (by omega)⟩

/-- The `j`-th value (0-based) the id generator yields when consumed
from state `c`: each `next` call yields `nextAvail` of the current state
and moves the state past the yielded value. -/
def genNth (ids : List Int) (c : Nat) : Nat → Nat
  | 0 => nextAvail ids c
  | j + 1 => genNth ids (nextAvail ids c + 1) j

theorem genNth_not_mem (ids : List Int) :
    ∀ (j c : Nat), ((genNth ids c j : Int) ∉ ids)
  | 0, c => (nextAvail_spec ids c).1
  | j + 1, c => genNth_not_mem ids j (nextAvail ids c + 1)

theorem genNth_ge (ids : List Int) :
    ∀ (j c : Nat), c ≤ genNth ids c j
  | 0, c => (nextAvail_spec ids c).2.1
  | j + 1, c => by
    have h1 := (nextAvail_spec ids c).2.1
    have h2 := genNth_ge ids j (nextAvail ids c + 1)
    show c ≤ genNth ids (nextAvail ids c + 1) j
    omega

theorem genNth_strictMono (ids : List Int) :
    ∀ (j c : Nat), genNth ids c j < genNth ids c (j + 1)
  | 0, c => by
    show nextAvail ids c < genNth ids (nextAvail ids c + 1) 0
    have := genNth_ge ids 0 (nextAvail ids c + 1)
    omega
  | j + 1, c => genNth_strictMono ids j (nextAvail ids c + 1)

theorem genNth_minimal (ids : List Int) :
    ∀ (j c m : Nat), c ≤ m → ((m : Int) ∉ ids) → m < genNth ids c j →
      ∃ j' : Nat, j' < j ∧ genNth ids c j' = m
  | 0, c, m, hcm, hfree, hlt => by
    exact absurd ((nextAvail_spec ids c).2.2 m hcm hlt) hfree
  | j + 1, c, m, hcm, hfree, hlt => by
    rcases Nat.lt_trichotomy m (nextAvail ids c) with hm | hm | hm
    · exact absurd ((nextAvail_spec ids c).2.2 m hcm hm) hfree
    · exact ⟨0, Nat.succ_pos j, hm.symm⟩
    · obtain ⟨j', hj', hval⟩ :=
        genNth_minimal ids j (nextAvail ids c + 1) m (by omega) hfree hlt
      exact ⟨j' + 1, by omega, hval⟩

/-- Number of id-lacking (falsy-id) panels among the first `i` panels of
an assignment-order list: the index into the generator output at which
the `i`-th panel draws, if it draws. -/
def lackBefore (ps : List PanelT) (i : Nat) : Nat :=
  ((ps.take i).filter (fun p => !idTruthy p.id)).length

theorem assignList_length (ids : List Int) :
    ∀ (ps : List PanelT) (c : Nat), (assignList ids ps c).1.length = ps.length
  | [], _ => rfl
  | _ :: rest, c => by
    simp only [assignList, List.length_cons]
    rw [assignList_length ids rest]

theorem assignList_get (ids : List Int) :
    ∀ (ps : List PanelT) (c i : Nat) (p : PanelT), ps.get? i = some p →
      (assignList ids ps c).1.get? i = some
        (if idTruthy p.id then p
         else p.withId (some ((genNth ids c (lackBefore ps i) : Nat) : Int)))
  | [], _, i, _, h => by cases i <;> cases h
  | q :: rest, c, 0, p, h => by
    obtain rfl : q = p := Option.some.inj h
    show some (setIdStep ids q c).1 = _
    unfold setIdStep
    by_cases hq : idTruthy q.id
    · rw [if_pos hq, if_pos hq]
    · rw [if_neg hq, if_neg hq]
      rfl
  | q :: rest, c, i + 1, p, h => by
    have hrest : rest.get? i = some p := h
    have ih := assignList_get ids rest (setIdStep ids q c).2 i p hrest
    show (assignList ids rest (setIdStep ids q c).2).1.get? i = _
    rw [ih]
    by_cases hq : idTruthy q.id
    · have hstate : (setIdStep ids q c).2 = c := by
        unfold setIdStep
        rw [if_pos hq]
      have hlack : lackBefore (q :: rest) (i + 1) = lackBefore rest i := by
        unfold lackBefore
        simp [List.filter_cons, hq]
      rw [hstate, hlack]
    · have hstate : (setIdStep ids q c).2 = nextAvail ids c + 1 := by
        unfold setIdStep
        rw [if_neg hq]
      have hlack : lackBefore (q :: rest) (i + 1) = lackBefore rest i + 1 := by
        unfold lackBefore
        simp [List.filter_cons, hq]
      rw [hstate, hlack]
      rfl

theorem assignList_append (ids : List Int) :
    ∀ (xs ys : List PanelT) (c : Nat),
      assignList ids (xs ++ ys) c =
        ((assignList ids xs c).1 ++
           (assignList ids ys (assignList ids xs c).2).1,
         (assignList ids ys (assignList ids xs c).2).2)
  | [], ys, c => rfl
  | x :: xs, ys, c => by
    have ih := assignList_append ids xs ys (setIdStep ids x c).2
    show ((setIdStep ids x c).1 ::
        (assignList ids (xs ++ ys) (setIdStep ids x c).2).1,
      (assignList ids (xs ++ ys) (setIdStep ids x c).2).2) = _
    rw [ih]
    rfl

/-- The panels to which `set_id` is actually applied, for one top-level
panel: the panel itself when it is plain, its direct children only when
it is a container (`RowPanel._map_panels` skips the container itself). -/
def PanelT.assignTargets : PanelT → List PanelT
  | .plain i => [.plain i]
  | .rowPanel _ ps => ps

/-- The sequence of panels in the order in which `set_id` is applied to
them by `auto_panel_ids`: rows' direct panels first, then for each
top-level panel its assignment targets. -/
def Dashboard.assignOrder (d : Dashboard) : List PanelT :=
  (d.rows.map Row.panels).flatten ++
    (d.panels.map PanelT.assignTargets).flatten

theorem assignRows_flatten (ids : List Int) :
    ∀ (rows : List Row) (c : Nat),
      ((assignRows ids rows c).1.map Row.panels).flatten =
        (assignList ids (rows.map Row.panels).flatten c).1 ∧
      (assignRows ids rows c).2 =
        (assignList ids (rows.map Row.panels).flatten c).2
  | [], c => ⟨rfl, rfl⟩
  | r :: rest, c => by
    obtain ⟨ih1, ih2⟩ :=
      assignRows_flatten ids rest (assignList ids r.panels c).2
    simp only [assignRows, List.map_cons, List.flatten_cons]
    rw [assignList_append ids r.panels]
    exact ⟨by rw [ih1], by rw [ih2]⟩

theorem mapPanelTop_assignTargets (ids : List Int) (p : PanelT) (c : Nat) :
    (mapPanelTop ids p c).1.assignTargets =
      (assignList ids p.assignTargets c).1 ∧
    (mapPanelTop ids p c).2 = (assignList ids p.assignTargets c).2 := by
  cases p with
  | plain i =>
    refine ⟨?_, rfl⟩
    show (setIdStep ids (.plain i) c).1.assignTargets =
      [(setIdStep ids (.plain i) c).1]
    unfold setIdStep
    split
    · rfl
    · rfl
  | rowPanel i ps => exact ⟨rfl, rfl⟩

theorem assignTops_flatten (ids : List Int) :
    ∀ (ps : List PanelT) (c : Nat),
      ((assignTops ids ps c).1.map PanelT.assignTargets).flatten =
        (assignList ids (ps.map PanelT.assignTargets).flatten c).1 ∧
      (assignTops ids ps c).2 =
        (assignList ids (ps.map PanelT.assignTargets).flatten c).2
  | [], c => ⟨rfl, rfl⟩
  | p :: rest, c => by
    obtain ⟨hp1, hp2⟩ := mapPanelTop_assignTargets ids p c
    obtain ⟨ih1, ih2⟩ := assignTops_flatten ids rest (mapPanelTop ids p c).2
    simp only [assignTops, List.map_cons, List.flatten_cons]
    rw [assignList_append ids p.assignTargets]
    constructor
    · rw [hp1, ih1, hp2]
    · rw [ih2, hp2]

theorem assignOrder_auto_panel_ids (d : Dashboard) :
    (Dashboard.auto_panel_ids d).assignOrder =
      (assignList d.usedIds d.assignOrder 1).1 := by
  obtain ⟨hr1, hr2⟩ := assignRows_flatten d.usedIds d.rows 1
  obtain ⟨ht1, ht2⟩ :=
    assignTops_flatten d.usedIds d.panels (assignRows d.usedIds d.rows 1).2
  show ((assignRows d.usedIds d.rows 1).1.map Row.panels).flatten ++
      ((assignTops d.usedIds d.panels
        (assignRows d.usedIds d.rows 1).2).1.map PanelT.assignTargets).flatten = _
  unfold Dashboard.assignOrder
  rw [assignList_append d.usedIds]
  rw [hr1, ht1, hr2]

theorem assignTops_get_container (ids : List Int) :
    ∀ (ps : List PanelT) (c i : Nat) (idv : Option Int) (cs : List PanelT),
      ps.get? i = some (.rowPanel idv cs) →
      ∃ cs' : List PanelT,
        (assignTops ids ps c).1.get? i = some (.rowPanel idv cs') ∧
        cs'.length = cs.length
  | [], _, i, _, _, h => by cases i <;> cases h
  | q :: rest, c, 0, idv, cs, h => by
    obtain rfl : q = .rowPanel idv cs := Option.some.inj h
    exact ⟨(assignList ids cs c).1, rfl, assignList_length ids cs c⟩
  | q :: rest, c, i + 1, idv, cs, h =>
    assignTops_get_container ids rest (mapPanelTop ids q c).2 i idv cs h

/-- The claim fails on the code: in a dashboard whose only panel is a
top-level container `RowPanel` lacking an id, `auto_panel_ids` leaves
the container without an id — `RowPanel._map_panels` applies the
assignment closure to the children only, never to the container itself —
although the container is a panel of the tree (it is yielded by
`_iter_panels`) that lacks an id. -/
theorem C2_auto_panel_ids_counterexample :
    (Dashboard.auto_panel_ids { panels := [PanelT.rowPanel none []] }).panels =
      [PanelT.rowPanel none []] ∧
    (Dashboard.iterPanels { panels := [PanelT.rowPanel none []] }).get? 0 =
      some (PanelT.rowPanel none []) ∧
    ∃ p ∈ (Dashboard.auto_panel_ids
        { panels := [PanelT.rowPanel none []] }).iterPanels,
      idTruthy p.id = false := by
  refine ⟨?_, rfl, PanelT.rowPanel none [], ?_, rfl⟩
  · show (assignTops _ [PanelT.rowPanel none []] _).1 = _
    rfl
  · show PanelT.rowPanel none [] ∈
      ((Dashboard.auto_panel_ids { panels := [PanelT.rowPanel none []] }).rows.map
        Row.panels).flatten ++ _
    exact List.mem_append.2 (Or.inr (by
      show PanelT.rowPanel none [] ∈
        (((assignTops _ [PanelT.rowPanel none []] _).1.map
          (fun p => p :: p.childPanels)).flatten)
      show PanelT.rowPanel none [] ∈ [PanelT.rowPanel none []]
      exact List.mem_singleton.2 rfl))

/-- **C2 (amended).**  `auto_panel_ids` collects the truthy ids of the
whole tree (rows first, then top-level panels and the direct children of
container panels) and deterministically assigns, in assignment order —
rows' direct panels, then for each top-level panel either the panel
itself (plain panels) or its direct children (container panels, which
are themselves never assigned) — the successive smallest positive
integers not in the used-id set to every assignable panel whose id is
falsy; panels with a truthy id are left unchanged, and container panels
keep their id and shape.  In the spec's scenario (three unset panels,
one with id 2) the unset panels receive 1, 3, 4 in traversal order. -/
theorem C2_auto_panel_ids_amended :
    (∀ (ids : List Int) (j : Nat),
      ((genNth ids 1 j : Int) ∉ ids) ∧ 1 ≤ genNth ids 1 j ∧
      genNth ids 1 j < genNth ids 1 (j + 1) ∧
      (∀ m : Nat, 1 ≤ m → ((m : Int) ∉ ids) → m < genNth ids 1 j →
        ∃ j' : Nat, j' < j ∧ genNth ids 1 j' = m)) ∧
    (∀ (d : Dashboard) (i : Nat) (p : PanelT),
      d.assignOrder.get? i = some p →
      (Dashboard.auto_panel_ids d).assignOrder.get? i = some
        (if idTruthy p.id then p
         else p.withId
           (some ((genNth d.usedIds 1 (lackBefore d.assignOrder i) : Nat) : Int)))) ∧
    (∀ (d : Dashboard) (i : Nat) (idv : Option Int) (cs : List PanelT),
      d.panels.get? i = some (.rowPanel idv cs) →
      ∃ cs' : List PanelT,
        (Dashboard.auto_panel_ids d).panels.get? i = some (.rowPanel idv cs') ∧
        cs'.length = cs.length) ∧
    (Dashboard.auto_panel_ids
      { panels := [.plain none, .plain (some 2), .plain none, .plain none] }).panels =
      [.plain (some 1), .plain (some 2), .plain (some 3), .plain (some 4)] := by
  refine ⟨fun ids j => ⟨genNth_not_mem ids j 1, genNth_ge ids j 1,
      genNth_strictMono ids j 1, fun m h1 h2 h3 => genNth_minimal ids j 1 m h1 h2 h3⟩,
    fun d i p hp => ?_, fun d i idv cs hc => ?_, ?_⟩
  · rw [assignOrder_auto_panel_ids d]
    exact assignList_get d.usedIds d.assignOrder 1 i p hp
  · exact assignTops_get_container d.usedIds d.panels
      (assignRows d.usedIds d.rows 1).2 i idv cs hc
  · simp [Dashboard.auto_panel_ids, assignRows, assignTops, mapPanelTop, assignList,
      setIdStep, nextAvail, Dashboard.usedIds, Dashboard.iterPanels,
      PanelT.childPanels, idTruthy, PanelT.id, PanelT.withId]

/-- Witness for C2 (amended): in the spec scenario, the first
assignable panel (which lacks an id) receives id 1. -/
theorem C2_auto_panel_ids_amended_witness :
    (Dashboard.auto_panel_ids
      { panels := [.plain none, .plain (some 2), .plain none, .plain none] }).assignOrder.get? 0 =
      some (.plain (some 1)) := by
  have h := C2_auto_panel_ids_amended.2.1
    { panels := [.plain none, .plain (some 2), .plain none, .plain none] }
    0 (.plain none) rfl
  rw [h]
  have hval : genNth (Dashboard.usedIds
      { panels := [.plain none, .plain (some 2), .plain none, .plain none] }) 1
      (lackBefore (Dashboard.assignOrder
        { panels := [.plain none, .plain (some 2), .plain none, .plain none] }) 0) = 1 := by
    show nextAvail [2] 1 = 1
    rw [nextAvail]
    norm_num
  rw [hval]
  rfl

theorem dashboard_lookup_panels (d : Dashboard) :
    d.to_json_data.2.lookup "panels" =
      some (.panels (if d.rows.isEmpty then d.panels else [])) := rfl

/-- **C10.**  The serialized dashboard's `"panels"` key holds the
dashboard's panels list when the rows list is empty and the empty list
whenever rows is non-empty (rows take precedence), while the `"rows"`
key always carries the rows list. -/
theorem C10_dashboard_panels_vs_rows :
    (∀ d : Dashboard, d.rows = [] →
      d.to_json_data.2.lookup "panels" = some (.panels d.panels)) ∧
    (∀ d : Dashboard, d.rows ≠ [] →
      d.to_json_data.2.lookup "panels" = some (.panels [])) ∧
    (∀ d : Dashboard, d.to_json_data.2.lookup "rows" = some (.rows d.rows)) := by
  refine ⟨fun d h => ?_, fun d h => ?_, fun d => rfl⟩
  · rw [dashboard_lookup_panels, h]
    rfl
  · rw [dashboard_lookup_panels]
    cases hr : d.rows with
    | nil => exact absurd hr h
    | cons r rs => rfl

/-- Witness for C10: a dashboard with one row serializes `"panels"` to
`[]` although its panels list is non-empty. -/
theorem C10_dashboard_panels_vs_rows_witness :
    (Dashboard.to_json_data
      { panels := [.plain (some 1)], rows := [⟨[.plain (some 2)]⟩] }).2.lookup
        "panels" = some (.panels []) :=
  C10_dashboard_panels_vs_rows.2.1
    { panels := [.plain (some 1)], rows := [⟨[.plain (some 2)]⟩] }
    (by intro h; cases h)

/-- A dashboard with both legacy rows and grid panels populated. -/
def dashboardBothPopulated : Dashboard :=
  { panels := [.plain (some 1)], rows := [⟨[.plain (some 2)]⟩] }

/-- **C6 (code bug).**  Serializing a dashboard populated with both
legacy rows and grid panels emits *no* notice at all — the
`if self.panels and self.rows:` branch of `Dashboard.to_json_data` is a
bare `pass` with the placeholder comment `# Your logic here`, so the
warning trace is empty — while the claim (and the branch's evident
intent) is that a non-fatal warning is surfaced.  The output document is
still produced. -/
theorem C6_both_rows_and_panels_no_warning :
    (∀ d : Dashboard, d.to_json_data.1 = []) ∧
    dashboardBothPopulated.to_json_data.1 = [] ∧
    dashboardBothPopulated.to_json_data.2.lookup "rows" =
      some (.rows [⟨[.plain (some 2)]⟩]) ∧
    dashboardBothPopulated.to_json_data.2.lookup "panels" =
      some (.panels []) ∧
    dashboardBothPopulated.to_json_data.2.lookup "title" =
      some (.val (.str "")) :=
  ⟨fun _ => rfl, rfl, rfl, rfl, rfl⟩

/-- Witness for C6, instantiating the universally quantified conjunct at
the concrete both-populated dashboard. -/
theorem C6_both_rows_and_panels_no_warning_witness :
    dashboardBothPopulated.to_json_data.1 = [] :=
  C6_both_rows_and_panels_no_warning.1 dashboardBothPopulated

/-! ## `Graph.auto_ref_ids` (`grafanalib/core.py`)

`auto_ref_ids` collects the truthy (non-empty) refIds of the panel's
targets, builds the candidate sequence
`itertools.chain(string.ascii_uppercase, ["AA", "AB", ..., "ZZ"])`
(single letters first, doubles in `itertools.product` order), filters
out the used refIds, and maps a `set_refid` closure over the targets
that draws from the resulting generator.  Consuming the lazy generator
value-by-value is equivalent to walking the pre-filtered candidate
list; an exhausted generator raises `StopIteration`, modelled by
`none`. -/

/-- Only the `targets` list of a `Graph` participates in
`auto_ref_ids` (`_iter_targets`/`_map_targets` touch nothing else). -/
structure Graph where
  targets : List Target := []

/-- `string.ascii_uppercase`. -/
def asciiUppercase : List Char := "ABCDEFGHIJKLMNOPQRSTUVWXYZ".data

/-- The candidate refId sequence: `A..Z`, then all two-letter
combinations `AA..ZZ` in Cartesian-product order. -/
def candidateRefIds : List String :=
  asciiUppercase.map (fun c => String.mk [c]) ++
    asciiUppercase.flatMap (fun a =>
      asciiUppercase.map (fun b => String.mk [a, b]))

/-- `{t.ref_id for t in self._iter_targets() if t.ref_id}` (as a list;
only membership matters). -/
def Graph.refIdsSet (g : Graph) : List String :=
  g.targets.filterMap (fun t =>
    if t.ref_id.isEmpty then none else some t.ref_id)

/-- The filtered candidate stream
`(i for i in candidate_ref_ids if i not in ref_ids)`. -/
def Graph.availRefIds (g : Graph) : List String :=
  candidateRefIds.filter (fun c => !g.refIdsSet.contains c)

/-- `next(auto_ref_ids)` on the (pre-filtered) candidate stream:
yields the head and the rest, or `none` for `StopIteration`. -/
def popAvail : List String → Option (String × List String)
  | [] => none
  | r :: avail' => some (r, avail')

/-- `set_refid` mapped over the targets, consuming the filtered
candidate stream; `none` models the `StopIteration` of an exhausted
generator. -/
def assignRefList : List Target → List String → Option (List Target × List String)
  | [], avail => some ([], avail)
  | t :: rest, avail =>
    if t.ref_id.isEmpty then
      (popAvail avail).bind (fun ra =>
        (assignRefList rest ra.2).map
          (fun p => ({ t with ref_id := ra.1 } :: p.1, p.2)))
    else
      (assignRefList rest avail).map (fun p => (t :: p.1, p.2))

/-- Embedding of `Graph.auto_ref_ids`. -/
def Graph.auto_ref_ids (g : Graph) : Option Graph :=
  (assignRefList g.targets g.availRefIds).map (fun p => { g with targets := p.1 })

/-- Number of refId-lacking targets among the first `i`. -/
def refLackBefore (ts : List Target) (i : Nat) : Nat :=
  ((ts.take i).filter (fun t => t.ref_id.isEmpty)).length

theorem assignRefList_get :
    ∀ (ts : List Target) (avail : List String) (ts' : List Target)
      (av' : List String), assignRefList ts avail = some (ts', av') →
      ∀ (i : Nat) (t : Target), ts.get? i = some t →
        if t.ref_id.isEmpty then
          ∃ r, avail.get? (refLackBefore ts i) = some r ∧
            ts'.get? i = some { t with ref_id := r }
        else ts'.get? i = some t
  | [], _, _, _, _, i, _, hi => by cases i <;> cases hi
  | q :: rest, avail, ts', av', h, i, t, hi => by
    replace h : (if q.ref_id.isEmpty then
        (popAvail avail).bind (fun ra =>
          (assignRefList rest ra.2).map
            (fun p => ({ q with ref_id := ra.1 } :: p.1, p.2)))
      else (assignRefList rest avail).map (fun p => (q :: p.1, p.2))) =
        some (ts', av') := h
    by_cases hq : q.ref_id.isEmpty
    · rw [if_pos hq] at h
      cases avail with
      | nil => cases h
      | cons r avail' =>
        rw [show popAvail (r :: avail') = some (r, avail') from rfl,
          Option.some_bind] at h
        cases hrec : assignRefList rest avail' with
        | none => rw [hrec] at h; cases h
        | some p =>
          rw [hrec, Option.map_some'] at h
          obtain ⟨h1, h2⟩ := Prod.mk.injEq .. ▸ Option.some.inj h
          subst h1
          subst h2
          cases i with
          | zero =>
            obtain rfl : q = t := Option.some.inj hi
            rw [if_pos hq]
            exact ⟨r, rfl, rfl⟩
          | succ i =>
            have ih := assignRefList_get rest avail' p.1 p.2
              (by rw [hrec]) i t hi
            have hlack : refLackBefore (q :: rest) (i + 1) =
                refLackBefore rest i + 1 := by
              unfold refLackBefore
              simp [List.filter_cons, hq]
            by_cases ht : t.ref_id.isEmpty
            · rw [if_pos ht] at ih ⊢
              obtain ⟨r', hr', hts⟩ := ih
              exact ⟨r', by rw [hlack]; exact hr', hts⟩
            · rw [if_neg ht] at ih ⊢
              exact ih
    · rw [if_neg hq] at h
      cases hrec : assignRefList rest avail with
      | none => rw [hrec] at h; cases h
      | some p =>
        rw [hrec, Option.map_some'] at h
        obtain ⟨h1, h2⟩ := Prod.mk.injEq .. ▸ Option.some.inj h
        subst h1
        subst h2
        cases i with
        | zero =>
          obtain rfl : q = t := Option.some.inj hi
          rw [if_neg hq]
          rfl
        | succ i =>
          have ih := assignRefList_get rest avail p.1 p.2 (by rw [hrec]) i t hi
          have hlack : refLackBefore (q :: rest) (i + 1) = refLackBefore rest i := by
            unfold refLackBefore
            simp [List.filter_cons, hq]
          rw [hlack]
          exact ih

theorem availRefIds_not_used (g : Graph) :
    ∀ r ∈ g.availRefIds, ¬ r ∈ g.refIdsSet := by
  intro r hr
  have hne := (List.mem_filter.1 hr).2
  simp only [Bool.not_eq_true'] at hne
  intro hmem
  have hne' : List.elem r g.refIdsSet = false := hne
  rw [List.elem_eq_true_of_mem hmem] at hne'
  cases hne'

set_option maxRecDepth 10000 in
/-- **C3.**  `auto_ref_ids` generates candidates in the order `A..Z`
followed by the double-letter combinations `AA..ZZ` in Cartesian-product
order (702 candidates in total), never assigns a refId equal to an
existing non-empty refId, and assigns the first unused candidate, in
list order, to each target lacking a refId; with 27 targets all lacking
refIds, the 27th target receives `"AA"`. -/
theorem C3_auto_ref_ids_order :
    candidateRefIds.take 27 =
      ["A", "B", "C", "D", "E", "F", "G", "H", "I", "J", "K", "L", "M", "N",
       "O", "P", "Q", "R", "S", "T", "U", "V", "W", "X", "Y", "Z", "AA"] ∧
    candidateRefIds.length = 702 ∧
    candidateRefIds.get? 27 = some "AB" ∧
    candidateRefIds.get? 51 = some "AZ" ∧
    candidateRefIds.get? 52 = some "BA" ∧
    candidateRefIds.getLast? = some "ZZ" ∧
    (∀ (g g' : Graph), g.auto_ref_ids = some g' →
      ∀ (i : Nat) (t : Target), g.targets.get? i = some t →
        if t.ref_id.isEmpty then
          ∃ r, g.availRefIds.get? (refLackBefore g.targets i) = some r ∧
            ¬ r ∈ g.refIdsSet ∧
            g'.targets.get? i = some { t with ref_id := r }
        else g'.targets.get? i = some t) ∧
    (Graph.auto_ref_ids { targets := List.replicate 27 {} }).map
      (fun g => g.targets.get? 26) = some (some ({ ref_id := "AA" } : Target)) := by
  refine ⟨rfl, rfl, rfl, rfl, rfl, rfl, fun g g' hg i t ht => ?_, rfl⟩
  replace hg : (assignRefList g.targets g.availRefIds).map
      (fun p => { g with targets := p.1 }) = some g' := hg
  cases hrec : assignRefList g.targets g.availRefIds with
  | none => rw [hrec] at hg; cases hg
  | some p =>
    rw [hrec, Option.map_some'] at hg
    obtain rfl : { g with targets := p.1 } = g' := Option.some.inj hg
    have hget := assignRefList_get g.targets g.availRefIds p.1 p.2
      (by rw [hrec]) i t ht
    by_cases hemp : t.ref_id.isEmpty
    · rw [if_pos hemp] at hget ⊢
      obtain ⟨r, hr1, hr2⟩ := hget
      exact ⟨r, hr1, availRefIds_not_used g r (List.get?_mem hr1), hr2⟩
    · rw [if_neg hemp] at hget ⊢
      exact hget

set_option maxRecDepth 10000 in
/-- Witness for C3: in a one-target graph whose target lacks a refId,
the target receives the first unused candidate `"A"`. -/
theorem C3_auto_ref_ids_order_witness :
    ∃ r, (Graph.availRefIds { targets := [{}] }).get?
        (refLackBefore [({} : Target)] 0) = some r ∧
      ¬ r ∈ Graph.refIdsSet { targets := [{}] } ∧
      ({ targets := [{ ref_id := "A" }] } : Graph).targets.get? 0 =
        some { ({} : Target) with ref_id := r } := by
  have h := C3_auto_ref_ids_order.2.2.2.2.2.2.1
    { targets := [{}] } { targets := [{ ref_id := "A" }] } rfl 0 {} rfl
  exact h

end Grafanalib
